import Mathlib

/-!
# Cafe ordering backend — shallow embedding

Embedding of the order/bill core of the cafe backend (`server/index.js`) and
of the kitchen dashboard's client helpers (`KitchenDashboard` component).
JavaScript numbers are modelled as rationals (`ℚ`), timestamps as naturals,
`Math.round` as floor of `x + 1/2` (JS rounds halves toward +∞), and the
falsy-coalescing idioms `x || d` are modelled field by field.
-/

namespace Cafe

/-- A line item `{ id, name, price, quantity }` as carried in order and bill
payloads. -/
structure Item where
  id : String
  name : String
  price : ℚ
  quantity : ℚ
deriving Repr, DecidableEq

/-- JS `x || 0` on a number: `0` is falsy, any other rational is truthy. -/
def orZero (x : ℚ) : ℚ := if x = 0 then 0 else x

/-- JS `x || 1` on a number: `0` is falsy, any other rational is truthy. -/
def orOne (x : ℚ) : ℚ := if x = 0 then 1 else x

/-- JS `Math.round`: rounds half toward positive infinity, i.e. `⌊x + 1/2⌋`. -/
def jsRound (x : ℚ) : ℤ := ⌊x + 1/2⌋

/-- `items.reduce((s, it) => s + (it.price || 0) * (it.quantity || 1), 0)` —
the accumulation used both by `POST /bills` (subtotal) and by `POST /orders`
(default `totalAmount`). -/
def itemsSubtotal (items : List Item) : ℚ :=
  items.foldl (fun s it => s + orZero it.price * orOne it.quantity) 0

/-- Modelled from the spec's words (not from the source): the claimed
subtotal `Σ price×quantity` over the items, with no falsy-coalescing of the
quantity. Compared against `itemsSubtotal` for the refinement claims. -/
def specSubtotal (items : List Item) : ℚ :=
  (items.map (fun it => it.price * it.quantity)).sum

/-- An order record as stored in the in-memory `orders` array. -/
structure Order where
  id : String
  tableNumber : Option ℤ
  customerName : String
  items : List Item
  totalAmount : ℚ
  status : String
  createdAt : ℕ
deriving Repr, DecidableEq

/-- A bill record as stored in the in-memory `bills` array. -/
structure Bill where
  id : String
  tableNumber : Option ℤ
  customerName : String
  items : List Item
  subtotal : ℚ
  tax : ℤ
  service : ℤ
  total : ℚ
  createdAt : ℕ
deriving Repr, DecidableEq

/-- The server's in-memory stores: `const orders = []` and `const bills = []`. -/
structure ServerState where
  orders : List Order
  bills : List Bill
deriving Repr, DecidableEq

/-- JS `tableNumber || null` on an optional number body field: absent stays
null and the falsy number `0` also becomes null. -/
def jsTableNumber (t : Option ℤ) : Option ℤ :=
  match t with
  | some v => if v = 0 then none else some v
  | none => none

/-- JS `customerName || "Guest"`: absent or empty string becomes `"Guest"`. -/
def jsCustomerName (c : Option String) : String :=
  match c with
  | some s => if s = "" then "Guest" else s
  | none => "Guest"

/-- JS `totalAmount || items.reduce(...)`: an absent or zero (falsy)
`totalAmount` is replaced by the computed item sum. -/
def jsTotalAmount (t : Option ℚ) (items : List Item) : ℚ :=
  match t with
  | some v => if v = 0 then itemsSubtotal items else v
  | none => itemsSubtotal items

/-- Request body of `POST /orders`. The handler destructures only
`tableNumber, customerName, items, totalAmount`; a client-supplied `status`
field is carried here to show it is ignored. -/
structure CreateOrderBody where
  tableNumber : Option ℤ
  customerName : Option String
  items : Option (List Item)
  totalAmount : Option ℚ
  status : Option String
deriving Repr, DecidableEq

/-- `POST /orders` (server/index.js): rejects a missing or empty `items`
array with a 400 (`none` here); otherwise builds the order with id
`ORD-${Date.now()}`, status `"PENDING"`, `createdAt = Date.now()`, pushes it
and responds `{ orderId }` together with the new state. -/
def postOrders (body : CreateOrderBody) (now : ℕ) (st : ServerState) :
    Option (String × ServerState) :=
  match body.items with
  | none => none
  | some items =>
    if items.isEmpty then none
    else
      let order : Order :=
        { id := "ORD-" ++ toString now
          tableNumber := jsTableNumber body.tableNumber
          customerName := jsCustomerName body.customerName
          items := items
          totalAmount := jsTotalAmount body.totalAmount items
          status := "PENDING"
          createdAt := now }
      some (order.id, { st with orders := st.orders ++ [order] })

/-- `GET /orders/:id`: `orders.find((o) => o.id === id)`, 404 when absent. -/
def getOrder (id : String) (st : ServerState) : Option Order :=
  st.orders.find? (fun o => o.id == id)

/-- The body of `if (status) orders[idx].status = status`: a truthy (present,
non-empty) status is written, otherwise the order is left as is. -/
def applyStatus (status : Option String) (o : Order) : Order :=
  match status with
  | some s => if s = "" then o else { o with status := s }
  | none => o

/-- In-place mutation of the first order whose id matches, mirroring
`findIndex` followed by `orders[idx].status = status`; `none` when no index
matches (404). Returns the (possibly updated) addressed order and the list. -/
def patchList (id : String) (status : Option String) :
    List Order → Option (Order × List Order)
  | [] => none
  | o :: rest =>
    if o.id = id then
      let o' := applyStatus status o
      some (o', o' :: rest)
    else
      match patchList id status rest with
      | none => none
      | some (r, rest') => some (r, o :: rest')

/-- `PATCH /orders/:id` (server/index.js): 404 (`none`) when `findIndex`
misses; otherwise writes a truthy `status` onto the found order and responds
`{ success, order }`. -/
def patchOrder (id : String) (status : Option String) (st : ServerState) :
    Option Order × ServerState :=
  match patchList id status st.orders with
  | none => (none, st)
  | some (o', orders') => (some o', { st with orders := orders' })

/-- `POST /bills` (server/index.js): rejects a missing/empty `items` array
(400, `none`); otherwise computes `subtotal`, `tax = Math.round(subtotal *
0.05)`, `service = Math.round(subtotal * 0.02)`, `total = subtotal + tax +
service`, pushes the bill and responds with it. No order is consulted. -/
def postBills (tableNumber : Option ℤ) (customerName : Option String)
    (items : List Item) (now : ℕ) (st : ServerState) :
    Option (Bill × ServerState) :=
  if items.isEmpty then none
  else
    let subtotal := itemsSubtotal items
    let tax := jsRound (subtotal * (5 / 100))
    let service := jsRound (subtotal * (2 / 100))
    let bill : Bill :=
      { id := "BILL-" ++ toString now
        tableNumber := jsTableNumber tableNumber
        customerName := jsCustomerName customerName
        items := items
        subtotal := subtotal
        tax := tax
        service := service
        total := subtotal + tax + service
        createdAt := now }
    some (bill, { st with bills := st.bills ++ [bill] })

/-- Kitchen client `updateOrderStatus(orderId, newStatus)`: a `PATCH
/orders/:orderId` with body `{ status: newStatus }`. -/
def updateOrderStatus (orderId : String) (newStatus : String)
    (st : ServerState) : Option Order × ServerState :=
  patchOrder orderId (some newStatus) st

/-- Kitchen client `generateBillForOrder(order)`: `POST /bills` with the
order's `tableNumber`, `customerName` and `items`; on success it fires
`updateOrderStatus(order.id, "COMPLETED")` (whose own result is discarded)
and reports the bill. -/
def generateBillForOrder (order : Order) (now : ℕ) (st : ServerState) :
    Option Bill × ServerState :=
  match postBills order.tableNumber (some order.customerName) order.items now st with
  | none => (none, st)
  | some (bill, st1) =>
    let st2 := (updateOrderStatus order.id "COMPLETED" st1).2
    (some bill, st2)

/-- `GET /reports/daily`: `dayBills.reduce((s, b) => s + (b.total || 0), 0)`. -/
def billsTotalRevenue (bs : List Bill) : ℚ :=
  bs.foldl (fun s b => s + orZero b.total) 0

/-- The daily report's `totalRevenue`: the revenue of the bills whose
`createdAt` falls within the day's `[start, end]` window. -/
def dailyRevenue (startT endT : ℕ) (bs : List Bill) : ℚ :=
  billsTotalRevenue
    (bs.filter (fun b => decide (startT ≤ b.createdAt) && decide (b.createdAt ≤ endT)))

/-- The kitchen dashboard's local `Order` type (`KitchenDashboard`): it
declares a `timestamp` field used for the FIFO tie-break. -/
structure KOrder where
  id : String
  tableNumber : ℤ
  customerName : String
  status : String
  timestamp : ℤ
deriving Repr, DecidableEq

/-- The comparator of `sortedOrders`: bill-requested orders first, then by
timestamp (oldest first). -/
def orderCompare (a b : KOrder) : ℤ :=
  if a.status = "BILL_REQUESTED" ∧ b.status ≠ "BILL_REQUESTED" then -1
  else if b.status = "BILL_REQUESTED" ∧ a.status ≠ "BILL_REQUESTED" then 1
  else a.timestamp - b.timestamp

/-- `[...orders].sort((a, b) => ...)` — JS `Array.sort` is a stable sort
driven by the comparator; modelled by `mergeSort` on `compare ≤ 0`. -/
def sortedOrders (orders : List KOrder) : List KOrder :=
  orders.mergeSort (fun a b => decide (orderCompare a b ≤ 0))

/-- Priority rank induced by the comparator: bill-requested orders rank 0,
everything else 1. -/
def brPrio (o : KOrder) : ℕ := if o.status = "BILL_REQUESTED" then 0 else 1

/-! ## Concrete fixtures (from the spec's test scenario and the seed menu) -/

/-- The scenario item: `{id:"tea-1", name:"Masala Chai", price:30, quantity:2}`. -/
def demoItem : Item := ⟨"tea-1", "Masala Chai", 30, 2⟩

/-- An item whose `quantity` is the falsy number `0`. -/
def zeroQtyItem : Item := ⟨"tea-1", "Masala Chai", 30, 0⟩

def pendingOrder : Order := ⟨"ORD-1", some 5, "Ann", [demoItem], 60, "PENDING", 1⟩

def readyOrder : Order := ⟨"ORD-1", some 5, "Ann", [demoItem], 60, "READY", 1⟩

def completedOrder : Order := ⟨"ORD-2", some 5, "Ann", [demoItem], 60, "COMPLETED", 1⟩

def bodyAnn : CreateOrderBody := ⟨some 5, some "Ann", some [demoItem], some 60, none⟩

def bodyBob : CreateOrderBody := ⟨some 7, some "Bob", some [demoItem], some 60, none⟩

/-- A create-order body whose submitted `totalAmount` is `0`. -/
def zeroTotalBody : CreateOrderBody := ⟨some 5, some "Ann", some [demoItem], some 0, none⟩

/-! ## Helper lemmas -/

theorem orZero_eq (x : ℚ) : orZero x = x := by
  unfold orZero; split <;> simp_all

theorem orOne_of_ne {x : ℚ} (h : x ≠ 0) : orOne x = x := by
  simp [orOne, h]

theorem foldl_add {α : Type} (f : α → ℚ) :
    ∀ (l : List α) (a : ℚ), l.foldl (fun s it => s + f it) a = a + (l.map f).sum := by
  intro l
  induction l with
  | nil => simp
  | cons x xs ih => intro a; simp [List.foldl, ih, add_assoc]

theorem itemsSubtotal_eq_map_sum (items : List Item) :
    itemsSubtotal items = (items.map (fun it => orZero it.price * orOne it.quantity)).sum := by
  unfold itemsSubtotal
  simpa using foldl_add (fun it => orZero it.price * orOne it.quantity) items 0

/-- When no quantity is falsy, the handler's subtotal is the spec's
`Σ price×quantity`. -/
theorem itemsSubtotal_eq_spec {items : List Item}
    (h : ∀ it ∈ items, it.quantity ≠ 0) :
    itemsSubtotal items = specSubtotal items := by
  rw [itemsSubtotal_eq_map_sum, specSubtotal]
  congr 1
  apply List.map_congr_left
  intro it hit
  rw [orZero_eq, orOne_of_ne (h it hit)]

theorem applyStatus_none (o : Order) : applyStatus none o = o := rfl

theorem applyStatus_empty (o : Order) : applyStatus (some "") o = o := by
  simp [applyStatus]

theorem applyStatus_some {s : String} (h : s ≠ "") (o : Order) :
    applyStatus (some s) o = { o with status := s } := by
  simp [applyStatus, h]

/-- A status write touches no field other than `status`. -/
theorem applyStatus_frame (status : Option String) (o : Order) :
    (applyStatus status o).id = o.id ∧
    (applyStatus status o).tableNumber = o.tableNumber ∧
    (applyStatus status o).customerName = o.customerName ∧
    (applyStatus status o).items = o.items ∧
    (applyStatus status o).totalAmount = o.totalAmount ∧
    (applyStatus status o).createdAt = o.createdAt := by
  unfold applyStatus
  cases status with
  | none => exact ⟨rfl, rfl, rfl, rfl, rfl, rfl⟩
  | some s => by_cases h : s = "" <;> simp [h]

theorem applyStatus_id (status : Option String) (o : Order) :
    (applyStatus status o).id = o.id := by
  unfold applyStatus
  cases status with
  | none => rfl
  | some s => by_cases h : s = "" <;> simp [h]

/-- `patchList` misses exactly when no order in the list has the id. -/
theorem patchList_eq_none_iff (id : String) (status : Option String)
    (l : List Order) :
    patchList id status l = none ↔ ∀ x ∈ l, x.id ≠ id := by
  induction l with
  | nil => simp [patchList]
  | cons o rest ih =>
    by_cases h : o.id = id
    · simp [patchList, h]
    · simp only [patchList, if_neg h]
      cases hr : patchList id status rest with
      | none =>
        have hrest := ih.mp hr
        constructor
        · intro _ x hx
          rcases List.mem_cons.mp hx with rfl | hx
          · exact h
          · exact hrest x hx
        · intro _; rfl
      | some p =>
        obtain ⟨r, rest'⟩ := p
        constructor
        · intro hc; simp at hc
        · intro hall
          have hn : patchList id status rest = none :=
            ih.mpr (fun x hx => hall x (List.mem_cons_of_mem _ hx))
          rw [hn] at hr
          exact absurd hr (by simp)

/-- A successful `patchList` splits the list around the first id match and
replaces exactly that element with its status-patched copy. -/
theorem patchList_spec {id : String} {status : Option String}
    {l : List Order} {o' : Order} {l' : List Order}
    (h : patchList id status l = some (o', l')) :
    ∃ l1 o l2, l = l1 ++ o :: l2 ∧ (∀ x ∈ l1, x.id ≠ id) ∧ o.id = id ∧
      o' = applyStatus status o ∧ l' = l1 ++ o' :: l2 := by
  induction l generalizing l' with
  | nil => simp [patchList] at h
  | cons a rest ih =>
    by_cases ha : a.id = id
    · simp only [patchList, if_pos ha] at h
      obtain ⟨h1, h2⟩ := Prod.mk.injEq .. ▸ Option.some.injEq .. ▸ h
      exact ⟨[], a, rest, by simp, by simp, ha, h1.symm, by simp [← h1, ← h2]⟩
    · simp only [patchList, if_neg ha] at h
      cases hr : patchList id status rest with
      | none => rw [hr] at h; exact absurd h (by simp)
      | some p =>
        rw [hr] at h
        obtain ⟨h1, h2⟩ := Prod.mk.injEq .. ▸ Option.some.injEq .. ▸ h
        obtain ⟨l1, o, l2, e1, e2, e3, e4, e5⟩ := @ih p.2 (by rw [hr, ← h1])
        exact ⟨a :: l1, o, l2, by simp [e1], by simpa [ha] using e2, e3, e4,
          by simp [← h2, e5]⟩

/-- `patchOrder` never touches the `bills` store. -/
theorem patchOrder_bills (id : String) (status : Option String)
    (st : ServerState) : ((patchOrder id status st).2).bills = st.bills := by
  unfold patchOrder
  cases h : patchList id status st.orders <;> simp

/-- `find?` returns the head of the second block when the first block all
fails and the head matches. -/
theorem find?_first_hit {p : Order → Bool} :
    ∀ {l1 : List Order} {o : Order} (l2 : List Order),
      (∀ x ∈ l1, p x = false) → p o = true →
      (l1 ++ o :: l2).find? p = some o := by
  intro l1
  induction l1 with
  | nil => intro o l2 _ h2; simp [List.find?, h2]
  | cons a rest ih =>
    intro o l2 h1 h2
    have ha : p a = false := h1 a (by simp)
    simpa [List.find?, ha] using ih l2 (fun x hx => h1 x (by simp [hx])) h2

/-- The comparator realises the lexicographic order on
`(priority, timestamp)`. -/
theorem orderCompare_nonpos_iff (a b : KOrder) :
    orderCompare a b ≤ 0 ↔
      brPrio a < brPrio b ∨ (brPrio a = brPrio b ∧ a.timestamp ≤ b.timestamp) := by
  unfold orderCompare brPrio
  by_cases ha : a.status = "BILL_REQUESTED" <;>
    by_cases hb : b.status = "BILL_REQUESTED" <;>
    simp [ha, hb]

theorem orderCompare_le_trans {a b c : KOrder}
    (h1 : orderCompare a b ≤ 0) (h2 : orderCompare b c ≤ 0) :
    orderCompare a c ≤ 0 := by
  rw [orderCompare_nonpos_iff] at h1 h2 ⊢
  rcases h1 with h1 | ⟨h1, h1'⟩ <;> rcases h2 with h2 | ⟨h2, h2'⟩
  · exact Or.inl (h1.trans h2)
  · exact Or.inl (h2 ▸ h1)
  · exact Or.inl (h1 ▸ h2)
  · exact Or.inr ⟨h1.trans h2, h1'.trans h2'⟩

theorem orderCompare_le_total (a b : KOrder) :
    orderCompare a b ≤ 0 ∨ orderCompare b a ≤ 0 := by
  rw [orderCompare_nonpos_iff, orderCompare_nonpos_iff]
  omega

/-- A successful patch of a non-empty status returns the patched order, which
is then the one `GET /orders/:id` finds, and carries the written status. -/
theorem patchOrder_getOrder {id : String} {s : String} (st : ServerState)
    (hs : s ≠ "") (h : ∃ x ∈ st.orders, x.id = id) :
    ∃ o', (patchOrder id (some s) st).1 = some o' ∧
      getOrder id ((patchOrder id (some s) st).2) = some o' ∧ o'.status = s := by
  have hne : patchList id (some s) st.orders ≠ none := by
    rw [Ne, patchList_eq_none_iff]
    push_neg
    obtain ⟨x, hx, hid⟩ := h
    exact ⟨x, hx, hid⟩
  cases hp : patchList id (some s) st.orders with
  | none => exact absurd hp hne
  | some p =>
    obtain ⟨o', l'⟩ := p
    obtain ⟨l1, o0, l2, e1, e2, e3, e4, e5⟩ := patchList_spec hp
    have ho' : o' = { o0 with status := s } := by rw [e4, applyStatus_some hs]
    refine ⟨o', ?_, ?_, by rw [ho']⟩
    · unfold patchOrder; rw [hp]
    · unfold patchOrder
      rw [hp]
      show getOrder id { st with orders := l' } = some o'
      unfold getOrder
      rw [e5]
      apply find?_first_hit
      · intro x hx
        exact beq_eq_false_iff_ne.mpr (e2 x hx)
      · exact beq_iff_eq.mpr (by rw [e4, applyStatus_id, e3])

/-- Evaluation of `POST /orders` on a body with a non-empty items array. -/
theorem postOrders_eq_some {body : CreateOrderBody} {its : List Item}
    (now : ℕ) (st : ServerState)
    (h1 : body.items = some its) (hE : its.isEmpty = false) :
    postOrders body now st = some ("ORD-" ++ toString now,
      { st with orders := st.orders ++
        [{ id := "ORD-" ++ toString now
           tableNumber := jsTableNumber body.tableNumber
           customerName := jsCustomerName body.customerName
           items := its
           totalAmount := jsTotalAmount body.totalAmount its
           status := "PENDING"
           createdAt := now }] }) := by
  unfold postOrders
  rw [h1]
  exact if_neg (by simp [hE])

/-! ## Claims -/

/-- C1 (counterexample): the claim quantifies over every non-empty list of
items, but the handler computes `(it.quantity || 1)`, so an item with the
falsy quantity `0` is billed as quantity 1: for
`[{price:30, quantity:0}]` the bill's subtotal is `30` while
`Σ price×quantity = 0`, refuting `subtotal = Σ price×quantity` as stated. -/
theorem postBills_claim_false_at_zero_quantity :
    ∃ b st', postBills none (some "Ann") [zeroQtyItem] 7 ⟨[], []⟩ = some (b, st') ∧
      b.subtotal = 30 ∧ specSubtotal [zeroQtyItem] = 0 := by
  refine ⟨_, _, rfl, ?_, ?_⟩ <;>
    norm_num [postBills, itemsSubtotal, specSubtotal, orZero, orOne, zeroQtyItem]

/-- C1 (amended): for every non-empty list of items in which every item's
quantity is nonzero (the handler defaults a falsy quantity to 1), the bill
computed by `POST /bills` satisfies `subtotal = Σ price×quantity`,
`tax = round(subtotal × 0.05)`, `service = round(subtotal × 0.02)` and
`total = subtotal + tax + service`, the two roundings being applied
independently before the sum. -/
theorem postBills_bill_formula (tn : Option ℤ) (cn : Option String)
    (items : List Item) (now : ℕ) (st : ServerState)
    (hne : items ≠ []) (hq : ∀ it ∈ items, it.quantity ≠ 0) :
    ∃ bill st', postBills tn cn items now st = some (bill, st') ∧
      bill.subtotal = specSubtotal items ∧
      bill.tax = jsRound (bill.subtotal * (5 / 100)) ∧
      bill.service = jsRound (bill.subtotal * (2 / 100)) ∧
      bill.total = bill.subtotal + bill.tax + bill.service := by
  have hE : items.isEmpty = false := by
    cases items with
    | nil => exact absurd rfl hne
    | cons a l => rfl
  unfold postBills
  rw [hE]
  exact ⟨_, _, rfl, itemsSubtotal_eq_spec hq, rfl, rfl, rfl⟩

/-- C1 (witness): the claim's own scenario — for
`[{id:"tea-1", price:30, quantity:2}]` the hypotheses hold, the general
formula applies, and the bill is `subtotal=60, tax=3, service=1, total=64`. -/
theorem postBills_bill_formula_witness :
    (([demoItem] : List Item) ≠ [] ∧ ∀ it ∈ [demoItem], it.quantity ≠ 0) ∧
    (∃ bill st',
      postBills (some 5) (some "Ann") [demoItem] 7 ⟨[], []⟩ = some (bill, st') ∧
      bill.subtotal = specSubtotal [demoItem] ∧
      bill.tax = jsRound (bill.subtotal * (5 / 100)) ∧
      bill.service = jsRound (bill.subtotal * (2 / 100)) ∧
      bill.total = bill.subtotal + bill.tax + bill.service) ∧
    (∃ bill st',
      postBills (some 5) (some "Ann") [demoItem] 7 ⟨[], []⟩ = some (bill, st') ∧
      bill.subtotal = 60 ∧ bill.tax = 3 ∧ bill.service = 1 ∧ bill.total = 64) := by
  refine ⟨⟨by simp, ?_⟩, postBills_bill_formula (some 5) (some "Ann") [demoItem] 7
    ⟨[], []⟩ (by simp) ?_, ?_⟩
  · intro it hit
    rw [List.mem_singleton] at hit
    rw [hit]
    norm_num [demoItem]
  · intro it hit
    rw [List.mem_singleton] at hit
    rw [hit]
    norm_num [demoItem]
  · refine ⟨_, _, rfl, ?_, ?_, ?_, ?_⟩ <;>
      norm_num [postBills, itemsSubtotal, orZero, orOne, jsRound, demoItem]

/-- C2 (code is wrong): `POST /bills` keys nothing by order — calling it a
second time with the same order's items pushes a second bill and doubles the
day's `totalRevenue` (64 becomes 128), violating the required idempotence. -/
theorem postBills_not_idempotent :
    ∃ b1 st1 b2 st2,
      postBills (some 5) (some "Ann") [demoItem] 100 ⟨[], []⟩ = some (b1, st1) ∧
      postBills (some 5) (some "Ann") [demoItem] 200 st1 = some (b2, st2) ∧
      st1.bills.length = 1 ∧ st2.bills.length = 2 ∧
      dailyRevenue 0 86400000 st1.bills = 64 ∧
      dailyRevenue 0 86400000 st2.bills = 128 := by
  refine ⟨_, _, _, _, rfl, rfl, rfl, rfl, ?_, ?_⟩ <;>
    norm_num [dailyRevenue, billsTotalRevenue, List.filter, orZero, itemsSubtotal,
      orOne, jsRound, demoItem]

/-- C3 (counterexample): bill generation performs no order lookup at all, so
it does not fail when the order is already COMPLETED (left) or entirely
missing from the store (right) — in both cases it succeeds and a bill is
created, refuting the claimed `NotFoundError`. -/
theorem generateBill_no_notFound_counterexample :
    (∃ b st', generateBillForOrder completedOrder 9 ⟨[completedOrder], []⟩ =
      (some b, st') ∧ st'.bills = [b]) ∧
    (∃ b st', generateBillForOrder completedOrder 9 ⟨[], []⟩ =
      (some b, st') ∧ st'.bills = [b]) := by
  exact ⟨⟨_, _, rfl, rfl⟩, ⟨_, _, rfl, rfl⟩⟩

/-- C3 (amended): `generateBill` fails exactly when the items array is empty
(the server's 400 "No items to bill"); it consults no order, so for any
order value — present or absent in the store, completed or not — a non-empty
items list yields success and appends a new bill. -/
theorem generateBillForOrder_items_only (o : Order) (now : ℕ) (st : ServerState) :
    (o.items = [] → generateBillForOrder o now st = (none, st)) ∧
    (o.items ≠ [] → ∃ b st', generateBillForOrder o now st = (some b, st') ∧
      st'.bills = st.bills ++ [b]) := by
  constructor
  · intro h
    unfold generateBillForOrder postBills
    simp [h]
  · intro h
    have hE : o.items.isEmpty = false := by
      cases hi : o.items with
      | nil => exact absurd hi h
      | cons a l => rfl
    have hpb : ∃ bill st1,
        postBills o.tableNumber (some o.customerName) o.items now st =
          some (bill, st1) ∧ st1 = { st with bills := st.bills ++ [bill] } := by
      unfold postBills
      rw [hE]
      exact ⟨_, _, rfl, rfl⟩
    obtain ⟨bill, st1, h1, h2⟩ := hpb
    refine ⟨bill, (updateOrderStatus o.id "COMPLETED" st1).2, ?_, ?_⟩
    · unfold generateBillForOrder
      rw [h1]
    · unfold updateOrderStatus
      rw [patchOrder_bills, h2]

/-- C3 (witness): for the concrete already-COMPLETED order the amended claim
applies — the call succeeds and appends a bill. -/
theorem generateBillForOrder_items_only_witness :
    completedOrder.items ≠ [] ∧
    ∃ b st', generateBillForOrder completedOrder 9 ⟨[completedOrder], []⟩ =
      (some b, st') ∧
      st'.bills = (⟨[completedOrder], []⟩ : ServerState).bills ++ [b] := by
  have h : completedOrder.items ≠ [] := by simp [completedOrder]
  exact ⟨h, (generateBillForOrder_items_only completedOrder 9 ⟨[completedOrder], []⟩).2 h⟩

/-- C4: whenever some stored order carries the billed order's id, a
successful `generateBillForOrder` leaves that order (as later fetched by
`GET /orders/:id`) with status COMPLETED — billing completes the order. -/
theorem generateBillForOrder_completes (o : Order) (now : ℕ) (st : ServerState)
    (h : ∃ x ∈ st.orders, x.id = o.id) :
    ∀ b st', generateBillForOrder o now st = (some b, st') →
      ∃ x, getOrder o.id st' = some x ∧ x.status = "COMPLETED" := by
  intro b st' hres
  cases hE : o.items.isEmpty with
  | true =>
    have hnone : generateBillForOrder o now st = (none, st) := by
      unfold generateBillForOrder postBills
      simp [hE]
    rw [hnone] at hres
    exact absurd hres (by simp)
  | false =>
    have hpb : ∃ bill st1,
        postBills o.tableNumber (some o.customerName) o.items now st =
          some (bill, st1) ∧ st1 = { st with bills := st.bills ++ [bill] } := by
      unfold postBills
      rw [hE]
      exact ⟨_, _, rfl, rfl⟩
    obtain ⟨bill, st1, h1, h2⟩ := hpb
    have hgen : generateBillForOrder o now st =
        (some bill, (updateOrderStatus o.id "COMPLETED" st1).2) := by
      unfold generateBillForOrder
      rw [h1]
    rw [hgen] at hres
    have hst' : st' = (updateOrderStatus o.id "COMPLETED" st1).2 :=
      (Prod.mk.injEq .. ▸ hres).2.symm
    have hmem : ∃ x ∈ st1.orders, x.id = o.id := by rw [h2]; exact h
    obtain ⟨o', _, hget, hstat⟩ :=
      patchOrder_getOrder st1 (show "COMPLETED" ≠ "" by decide) hmem
    exact ⟨o', by rw [hst']; exact hget, hstat⟩

/-- C4 (witness): billing the concrete READY order stored in the server
leaves it COMPLETED. -/
theorem generateBillForOrder_completes_witness :
    (∃ x ∈ (⟨[readyOrder], []⟩ : ServerState).orders, x.id = readyOrder.id) ∧
    ∃ b st', generateBillForOrder readyOrder 9 ⟨[readyOrder], []⟩ = (some b, st') ∧
      ∃ x, getOrder readyOrder.id st' = some x ∧ x.status = "COMPLETED" := by
  have h : ∃ x ∈ (⟨[readyOrder], []⟩ : ServerState).orders, x.id = readyOrder.id :=
    ⟨readyOrder, by simp, rfl⟩
  exact ⟨h, _, _, rfl,
    generateBillForOrder_completes readyOrder 9 ⟨[readyOrder], []⟩ h _ _ rfl⟩

/-- C5: for any create-order body with a non-empty items array, the handler
is insensitive to a client-supplied `status` field, and the created order has
status `"PENDING"`, the server-assigned id `ORD-${Date.now()}` and the
server's timestamp as `createdAt`. -/
theorem postOrders_always_pending (body : CreateOrderBody) (now : ℕ)
    (st : ServerState) (its : List Item)
    (h1 : body.items = some its) (h2 : its ≠ []) :
    (∀ s, postOrders { body with status := s } now st = postOrders body now st) ∧
    ∃ st', postOrders body now st = some ("ORD-" ++ toString now, st') ∧
      ∃ o, st'.orders = st.orders ++ [o] ∧ o.status = "PENDING" ∧
        o.id = "ORD-" ++ toString now ∧ o.createdAt = now := by
  have hE : its.isEmpty = false := by
    cases hi : its with
    | nil => exact absurd hi h2
    | cons a l => rfl
  constructor
  · intro s
    rfl
  · rw [postOrders_eq_some now st h1 hE]
    exact ⟨_, rfl, _, rfl, rfl, rfl, rfl⟩

/-- C5 (witness): a body that smuggles in `status: "COMPLETED"` still yields
a PENDING order with a server-assigned id and timestamp. -/
theorem postOrders_always_pending_witness :
    ({ bodyAnn with status := some "COMPLETED" } : CreateOrderBody).items =
      some [demoItem] ∧
    (([demoItem] : List Item) ≠ []) ∧
    ∃ st', postOrders { bodyAnn with status := some "COMPLETED" } 1 ⟨[], []⟩ =
      some ("ORD-" ++ toString 1, st') ∧
      ∃ o, st'.orders = (⟨[], []⟩ : ServerState).orders ++ [o] ∧
        o.status = "PENDING" ∧ o.id = "ORD-" ++ toString 1 ∧ o.createdAt = 1 := by
  exact ⟨rfl, by simp,
    (postOrders_always_pending { bodyAnn with status := some "COMPLETED" } 1
      ⟨[], []⟩ [demoItem] rfl (by simp)).2⟩

/-- C7 (counterexample): a submitted `totalAmount` of `0` is falsy, so
`totalAmount || items.reduce(...)` replaces it with the computed sum: the
order read back after `POST /orders` with `totalAmount: 0` and the scenario
item carries `totalAmount = 60`, not the submitted `0`. -/
theorem roundTrip_zero_total_counterexample :
    zeroTotalBody.totalAmount = some 0 ∧
    ∃ oid st', postOrders zeroTotalBody 1 ⟨[], []⟩ = some (oid, st') ∧
      ∃ o, getOrder oid st' = some o ∧ o.totalAmount = 60 := by
  refine ⟨rfl, _, _, rfl, _, rfl, ?_⟩
  norm_num [zeroTotalBody, jsTotalAmount, itemsSubtotal, orZero, orOne, demoItem]

/-- C7 (amended): when the new order's id collides with no stored order, the
order read back by `GET /orders/:id` carries exactly the submitted items, and
exactly the submitted `totalAmount` whenever that value is nonzero; a zero or
omitted `totalAmount` is stored as the computed `items.reduce` sum instead. -/
theorem postOrders_getOrder_roundTrip (body : CreateOrderBody) (now : ℕ)
    (st : ServerState) (its : List Item)
    (h1 : body.items = some its) (h2 : its ≠ [])
    (hfresh : ∀ x ∈ st.orders, x.id ≠ "ORD-" ++ toString now) :
    ∃ oid st', postOrders body now st = some (oid, st') ∧
      ∃ o, getOrder oid st' = some o ∧ o.items = its ∧
        o.totalAmount = jsTotalAmount body.totalAmount its ∧
        (∀ t, body.totalAmount = some t → t ≠ 0 → o.totalAmount = t) := by
  have hE : its.isEmpty = false := by
    cases hi : its with
    | nil => exact absurd hi h2
    | cons a l => rfl
  refine ⟨_, _, postOrders_eq_some now st h1 hE,
    { id := "ORD-" ++ toString now
      tableNumber := jsTableNumber body.tableNumber
      customerName := jsCustomerName body.customerName
      items := its
      totalAmount := jsTotalAmount body.totalAmount its
      status := "PENDING"
      createdAt := now }, ?_, rfl, rfl, ?_⟩
  · unfold getOrder
    apply find?_first_hit
    · intro x hx
      exact beq_eq_false_iff_ne.mpr (hfresh x hx)
    · exact beq_iff_eq.mpr rfl
  · intro t ht hne
    rw [ht]
    simp [jsTotalAmount, hne]

/-- C7 (witness): submitting `totalAmount: 999` (deliberately different from
the computed sum 60) round-trips unchanged along with the items. -/
theorem postOrders_getOrder_roundTrip_witness :
    ({ bodyAnn with totalAmount := some 999 } : CreateOrderBody).items =
      some [demoItem] ∧ (([demoItem] : List Item) ≠ []) ∧
    (∀ x ∈ (⟨[], []⟩ : ServerState).orders, x.id ≠ "ORD-" ++ toString 1) ∧
    ∃ oid st', postOrders { bodyAnn with totalAmount := some 999 } 1 ⟨[], []⟩ =
      some (oid, st') ∧
      ∃ o, getOrder oid st' = some o ∧ o.items = [demoItem] ∧
        o.totalAmount = jsTotalAmount (some 999) [demoItem] ∧
        (∀ t, (some 999 : Option ℚ) = some t → t ≠ 0 → o.totalAmount = t) := by
  exact ⟨rfl, by simp, by simp,
    postOrders_getOrder_roundTrip { bodyAnn with totalAmount := some 999 } 1
      ⟨[], []⟩ [demoItem] rfl (by simp) (by simp)⟩

/-- C8 (counterexample): the claim says any status string supplied by the
caller is written, but a supplied empty-string status is falsy for
`if (status)`: the call succeeds yet leaves the PENDING order byte-for-byte
unchanged — the supplied `""` is never written. -/
theorem patch_empty_status_counterexample :
    pendingOrder.status = "PENDING" ∧
    patchOrder "ORD-1" (some "") ⟨[pendingOrder], []⟩ =
      (some pendingOrder, ⟨[pendingOrder], []⟩) := by
  exact ⟨rfl, rfl⟩

/-- C8 (amended): `PATCH /orders/:id` misses (`NotFoundError`) exactly when
no stored order has the id; when one exists, any supplied non-empty status
string — with no validation against the lifecycle — is written and echoed
back, and no other failure (no `InvalidTransitionError`) is possible: the
result is either the 404 miss or a success. -/
theorem patchOrder_no_transition_validation (id : String)
    (status : Option String) (st : ServerState) :
    ((patchOrder id status st).1 = none ↔ ∀ x ∈ st.orders, x.id ≠ id) ∧
    (∀ s, status = some s → s ≠ "" → (∃ x ∈ st.orders, x.id = id) →
      ∃ o', (patchOrder id status st).1 = some o' ∧ o'.status = s) := by
  constructor
  · unfold patchOrder
    cases hp : patchList id status st.orders with
    | none =>
      simpa using (patchList_eq_none_iff id status st.orders).mp hp
    | some p =>
      obtain ⟨o', l'⟩ := p
      constructor
      · intro hc
        exact absurd hc (by simp)
      · intro hall
        rw [(patchList_eq_none_iff id status st.orders).mpr hall] at hp
        exact absurd hp (by simp)
  · intro s hs hne hmem
    subst hs
    obtain ⟨o', ho1, _, ho3⟩ := patchOrder_getOrder st hne hmem
    exact ⟨o', ho1, ho3⟩

/-- C8 (witness): patching the PENDING order straight to the made-up status
`"SKIP_EVERYTHING"` succeeds and writes it — no transition validation. -/
theorem patchOrder_no_transition_validation_witness :
    (((patchOrder "ORD-1" (some "SKIP_EVERYTHING") ⟨[pendingOrder], []⟩).1 = none ↔
      ∀ x ∈ (⟨[pendingOrder], []⟩ : ServerState).orders, x.id ≠ "ORD-1") ∧
     (∃ x ∈ (⟨[pendingOrder], []⟩ : ServerState).orders, x.id = "ORD-1") ∧
     ∃ o', (patchOrder "ORD-1" (some "SKIP_EVERYTHING") ⟨[pendingOrder], []⟩).1 =
        some o' ∧ o'.status = "SKIP_EVERYTHING") := by
  have hmem : ∃ x ∈ (⟨[pendingOrder], []⟩ : ServerState).orders, x.id = "ORD-1" :=
    ⟨pendingOrder, by simp, rfl⟩
  exact ⟨(patchOrder_no_transition_validation "ORD-1" (some "SKIP_EVERYTHING")
      ⟨[pendingOrder], []⟩).1, hmem,
    (patchOrder_no_transition_validation "ORD-1" (some "SKIP_EVERYTHING")
      ⟨[pendingOrder], []⟩).2 "SKIP_EVERYTHING" rfl (by decide) hmem⟩

/-- C9 (code is wrong): order ids are `ORD-${Date.now()}`, so two orders
created at the same millisecond receive the same id — here two distinct
orders (customers Ann and Bob) both get id `ORD-1000`, violating the claimed
uniqueness. (`uuid` is imported by the server but unused for order ids.) -/
theorem postOrders_duplicate_id_same_millisecond :
    ∃ st1 st2,
      postOrders bodyAnn 1000 ⟨[], []⟩ = some ("ORD-" ++ toString 1000, st1) ∧
      postOrders bodyBob 1000 st1 = some ("ORD-" ++ toString 1000, st2) ∧
      ∃ o1 o2, st2.orders = [o1, o2] ∧ o1.id = o2.id ∧
        o1.customerName = "Ann" ∧ o2.customerName = "Bob" := by
  exact ⟨_, _, rfl, rfl, _, _, rfl, rfl, rfl, rfl⟩

/-- C10: a status patch on an existing order replaces exactly the first
order carrying the id: every order before and after it in the store — and
the bills store — is untouched, the addressed order keeps its id,
tableNumber, customerName, items, totalAmount and createdAt, and when the
body carries no status (or an empty-string one) the call still succeeds with
the order, and the whole state, completely unchanged. -/
theorem patchOrder_frame (id : String) (status : Option String)
    (st : ServerState) (h : ∃ x ∈ st.orders, x.id = id) :
    ∃ l1 o l2 o', st.orders = l1 ++ o :: l2 ∧ o.id = id ∧
      (∀ x ∈ l1, x.id ≠ id) ∧
      patchOrder id status st = (some o', { st with orders := l1 ++ o' :: l2 }) ∧
      o'.id = o.id ∧ o'.tableNumber = o.tableNumber ∧
      o'.customerName = o.customerName ∧ o'.items = o.items ∧
      o'.totalAmount = o.totalAmount ∧ o'.createdAt = o.createdAt ∧
      ((status = none ∨ status = some "") →
        patchOrder id status st = (some o, st)) := by
  have hne : patchList id status st.orders ≠ none := by
    rw [Ne, patchList_eq_none_iff]
    push_neg
    obtain ⟨x, hx, hid⟩ := h
    exact ⟨x, hx, hid⟩
  cases hp : patchList id status st.orders with
  | none => exact absurd hp hne
  | some p =>
    obtain ⟨o', l'⟩ := p
    obtain ⟨l1, o0, l2, e1, e2, e3, e4, e5⟩ := patchList_spec hp
    have hpatch : patchOrder id status st =
        (some o', { st with orders := l1 ++ o' :: l2 }) := by
      unfold patchOrder
      rw [hp, e5]
    refine ⟨l1, o0, l2, o', e1, e3, e2, hpatch, ?_, ?_, ?_, ?_, ?_, ?_, ?_⟩
    · rw [e4, applyStatus_id]
    · rw [e4]; exact (applyStatus_frame status o0).2.1
    · rw [e4]; exact (applyStatus_frame status o0).2.2.1
    · rw [e4]; exact (applyStatus_frame status o0).2.2.2.1
    · rw [e4]; exact (applyStatus_frame status o0).2.2.2.2.1
    · rw [e4]; exact (applyStatus_frame status o0).2.2.2.2.2
    · intro htriv
      have ho : o' = o0 := by
        rcases htriv with rfl | rfl
        · rw [e4, applyStatus_none]
        · rw [e4, applyStatus_empty]
      rw [hpatch, ho, ← e1]

/-- C10 (witness): patching the stored PENDING order to PREPARING changes
only its status. -/
theorem patchOrder_frame_witness :
    (∃ x ∈ (⟨[pendingOrder], []⟩ : ServerState).orders, x.id = "ORD-1") ∧
    ∃ l1 o l2 o',
      (⟨[pendingOrder], []⟩ : ServerState).orders = l1 ++ o :: l2 ∧
      o.id = "ORD-1" ∧ (∀ x ∈ l1, x.id ≠ "ORD-1") ∧
      patchOrder "ORD-1" (some "PREPARING") ⟨[pendingOrder], []⟩ =
        (some o', { (⟨[pendingOrder], []⟩ : ServerState) with
          orders := l1 ++ o' :: l2 }) ∧
      o'.id = o.id ∧ o'.tableNumber = o.tableNumber ∧
      o'.customerName = o.customerName ∧ o'.items = o.items ∧
      o'.totalAmount = o.totalAmount ∧ o'.createdAt = o.createdAt ∧
      ((some "PREPARING" = (none : Option String) ∨
        some "PREPARING" = some "") →
        patchOrder "ORD-1" (some "PREPARING") ⟨[pendingOrder], []⟩ =
          (some o, ⟨[pendingOrder], []⟩)) := by
  have h : ∃ x ∈ (⟨[pendingOrder], []⟩ : ServerState).orders, x.id = "ORD-1" :=
    ⟨pendingOrder, by simp, rfl⟩
  exact ⟨h, patchOrder_frame "ORD-1" (some "PREPARING") ⟨[pendingOrder], []⟩ h⟩

/-- C6: the kitchen dashboard's `sortedOrders` is a permutation of the
fetched list in which every BILL_REQUESTED order precedes every
non-BILL_REQUESTED order, and any two orders of equal priority appear in
ascending timestamp order (oldest first). -/
theorem sortedOrders_priority_fifo (orders : List KOrder) :
    List.Perm (sortedOrders orders) orders ∧
    (sortedOrders orders).Pairwise (fun a b =>
      (b.status = "BILL_REQUESTED" → a.status = "BILL_REQUESTED") ∧
      ((a.status = "BILL_REQUESTED" ↔ b.status = "BILL_REQUESTED") →
        a.timestamp ≤ b.timestamp)) := by
  constructor
  · exact List.mergeSort_perm orders _
  · have htrans : ∀ a b c : KOrder, decide (orderCompare a b ≤ 0) = true →
        decide (orderCompare b c ≤ 0) = true →
        decide (orderCompare a c ≤ 0) = true := by
      intro a b c h1 h2
      rw [decide_eq_true_eq] at h1 h2 ⊢
      exact orderCompare_le_trans h1 h2
    have htotal : ∀ a b : KOrder,
        (decide (orderCompare a b ≤ 0) || decide (orderCompare b a ≤ 0)) = true := by
      intro a b
      rcases orderCompare_le_total a b with h | h <;> simp [h]
    have hs := List.sorted_mergeSort htrans htotal orders
    refine hs.imp ?_
    intro a b hab
    rw [decide_eq_true_eq, orderCompare_nonpos_iff] at hab
    unfold brPrio at hab
    by_cases ha : a.status = "BILL_REQUESTED" <;>
      by_cases hb : b.status = "BILL_REQUESTED" <;>
      simp [ha, hb] at hab ⊢ <;> omega

end Cafe
